import Mathlib

/-!
Verification of the test-framework detection engine
(`skills/adding-tests/scripts/detect_test_framework.py`).

The filesystem is modelled as an explicit value: the status of the project
root (missing, an existing regular file, or an existing directory) together
with the list of entries reachable under the root when it is a directory.
Each entry carries its path relative to the root and the result of reading
it as text: `some s` is the text obtained by the lenient decode
(`errors=ignore`, which is total, so a file with invalid byte sequences
still decodes to some string), while `none` stands for any OS-level read
failure (permission denied, path is a directory, I/O error), which in the
source raises and is swallowed by the probe.  The entry list is kept in the
deterministic order in which the recursive search (`Path.rglob`) yields
matches.
-/

inductive RootStatus where
  | missing
  | file
  | dir
deriving DecidableEq, Repr

structure FSEntry where
  path : String
  content : Option String
deriving DecidableEq, Repr

structure FS where
  rootStatus : RootStatus
  entries : List FSEntry
deriving DecidableEq, Repr

/-- Reading a path relative to the root: `none` when the path does not
exist (in particular whenever the root is not a directory, since a missing
or regular-file root has no addressable children); `some none` when it
exists but reading raises; `some (some s)` when it reads as text `s`. -/
def FS.lookup (fs : FS) (name : String) : Option (Option String) :=
  if fs.rootStatus = RootStatus.dir then
    (fs.entries.find? (fun e => e.path == name)).map (fun e => e.content)
  else none

/-- Counterpart of `(base_path / f).exists()`. -/
def entryExists (fs : FS) (name : String) : Bool :=
  (fs.lookup name).isSome

/-- Source `check_file_exists`: any of the candidate names exists under
the root. -/
def check_file_exists (fs : FS) (files : List String) : Bool :=
  files.any (fun f => entryExists fs f)

/-- Substring containment on the underlying character lists, the meaning of
the source-language `pattern in content` check. -/
def listContains (hay pat : List Char) : Bool :=
  match hay with
  | [] => pat == []
  | _ :: t => (hay.take pat.length == pat) || listContains t pat

def strContains (s pat : String) : Bool :=
  listContains s.data pat.data

/-- Source `check_file_contains`: false when the file does not exist, false
when the read raises (the bare `except` clause), otherwise true iff some
pattern occurs in the decoded text. -/
def check_file_contains (fs : FS) (name : String) (patterns : List String) : Bool :=
  match fs.lookup name with
  | some (some content) => patterns.any (fun p => strContains content p)
  | _ => false

/-- `check_file_contains` applied to an entry already produced by the
recursive search (the entry exists, so only readability matters). -/
def entryContains (e : FSEntry) (patterns : List String) : Bool :=
  match e.content with
  | some content => patterns.any (fun p => strContains content p)
  | none => false

/-- Characters of the final path component: restart the accumulator at
every separator. -/
def basenameAux : List Char → List Char → List Char
  | acc, [] => acc.reverse
  | acc, c :: t => if c == '/' then basenameAux [] t else basenameAux (c :: acc) t

def basename (p : String) : String :=
  String.mk (basenameAux [] p.data)

/-- Single-star glob match: `name` is `pre ++ mid ++ suf` for some `mid`.
All patterns the source passes to `rglob` have this `pre*suf` shape. -/
def globMatch (pre suf name : String) : Bool :=
  let n := name.data
  let p := pre.data
  let s := suf.data
  decide (p.length + s.length ≤ n.length) &&
    (n.take p.length == p) && (n.drop (n.length - s.length) == s)

/-- Source `base_path.rglob(pattern)`: the entries whose final path
component matches the pattern, in listing order; empty when the root is
not a directory (pathlib yields nothing in that case). -/
def rglob (fs : FS) (pre suf : String) : List FSEntry :=
  if fs.rootStatus = RootStatus.dir then
    fs.entries.filter (fun e => globMatch pre suf (basename e.path))
  else []

def pytest_configs : List String :=
  ["pytest.ini", "pyproject.toml", "setup.cfg", "tox.ini"]

def req_files : List String :=
  ["requirements.txt", "requirements-dev.txt", "dev-requirements.txt"]

/-- Source `detect_python_framework`. -/
def detect_python_framework (fs : FS) : Option (String × Nat) :=
  if check_file_exists fs pytest_configs then some ("pytest", 90)
  else if req_files.any (fun f => check_file_contains fs f ["pytest"]) then
    some ("pytest", 80)
  else
    let test_files := rglob fs "test" ".py"
    if (test_files.take 5).any
        (fun e => entryContains e ["import unittest", "from unittest"]) then
      some ("unittest", 70)
    else if test_files.isEmpty then none
    else some ("pytest", 50)

/-- Single-quote character (codepoint 39), used to spell the source's
quoted import patterns without a bare apostrophe. -/
def squote : String := String.mk [Char.ofNat 39]

/-- Per-file cascade of the JavaScript detector's test-file stage. -/
def jsFileSignal (e : FSEntry) : Option (String × Nat) :=
  if entryContains e ["from \"vitest\"", "from " ++ squote ++ "vitest" ++ squote] then
    some ("vitest", 75)
  else if entryContains e ["from \"jest\"", "@jest"] then some ("jest", 75)
  else if entryContains e ["from \"mocha\"", "from " ++ squote ++ "mocha" ++ squote] then
    some ("mocha", 75)
  else none

/-- Source `detect_javascript_framework`.  Note the package.json stage
falls through to the test-file stage when none of its probes match, and
each probe is an any-of-patterns check. -/
def detect_javascript_framework (fs : FS) : Option (String × Nat) :=
  if check_file_exists fs ["vitest.config.ts", "vitest.config.js", "vite.config.ts"] then
    some ("vitest", 90)
  else if check_file_exists fs ["jest.config.js", "jest.config.ts", "jest.config.json"] then
    some ("jest", 90)
  else
    let pkgSignal : Option (String × Nat) :=
      if entryExists fs "package.json" then
        if check_file_contains fs "package.json" ["\"vitest\""] then some ("vitest", 85)
        else if check_file_contains fs "package.json" ["\"jest\""] then some ("jest", 85)
        else if check_file_contains fs "package.json" ["\"mocha\""] then some ("mocha", 85)
        else if check_file_contains fs "package.json" ["\"test\":", "vitest"] then
          some ("vitest", 80)
        else if check_file_contains fs "package.json" ["\"test\":", "jest"] then
          some ("jest", 80)
        else none
      else none
    match pkgSignal with
    | some r => some r
    | none =>
      let test_files := rglob fs "" ".test.ts" ++ rglob fs "" ".test.js"
      (test_files.take 5).findSome? jsFileSignal

/-- Per-project-file cascade of the .NET detector. -/
def dotnetProjSignal (e : FSEntry) : Option (String × Nat) :=
  if entryContains e ["xunit", "xUnit"] then some ("xunit", 90)
  else if entryContains e ["NUnit", "nunit"] then some ("nunit", 90)
  else if entryContains e ["MSTest"] then some ("mstest", 90)
  else none

/-- Per-test-file cascade of the .NET detector. -/
def dotnetFileSignal (e : FSEntry) : Option (String × Nat) :=
  if entryContains e ["using Xunit", "using xUnit"] then some ("xunit", 80)
  else if entryContains e ["using NUnit"] then some ("nunit", 80)
  else if entryContains e ["using Microsoft.VisualStudio.TestTools"] then some ("mstest", 80)
  else none

/-- Source `detect_dotnet_framework`.  The project-file loop runs over all
matches; the test-file loop samples the first five. -/
def detect_dotnet_framework (fs : FS) : Option (String × Nat) :=
  match (rglob fs "" ".csproj").findSome? dotnetProjSignal with
  | some r => some r
  | none =>
    let test_files := rglob fs "" "Test.cs" ++ rglob fs "" "Tests.cs"
    (test_files.take 5).findSome? dotnetFileSignal

/-- Per-test-file cascade of the Java detector. -/
def javaFileSignal (e : FSEntry) : Option (String × Nat) :=
  if entryContains e ["org.junit.jupiter", "@Test"] then some ("junit5", 80)
  else if entryContains e ["org.junit.Test", "@Test"] then some ("junit4", 80)
  else if entryContains e ["org.testng"] then some ("testng", 80)
  else none

/-- One iteration of the Gradle descriptor loop. -/
def gradleSignal (fs : FS) (name : String) : Option (String × Nat) :=
  if entryExists fs name then
    if check_file_contains fs name ["junit-jupiter", "junit 5"] then some ("junit5", 90)
    else if check_file_contains fs name ["junit:"] then some ("junit4", 90)
    else none
  else none

/-- Source `detect_java_framework`: Maven descriptor, then Gradle
descriptors, then sampled test files; each block falls through when it
matches nothing. -/
def detect_java_framework (fs : FS) : Option (String × Nat) :=
  let pomSignal : Option (String × Nat) :=
    if entryExists fs "pom.xml" then
      if check_file_contains fs "pom.xml" ["junit-jupiter", "junit 5"] then
        some ("junit5", 90)
      else if check_file_contains fs "pom.xml" ["junit", "junit-vintage"] then
        some ("junit4", 90)
      else if check_file_contains fs "pom.xml" ["testng"] then some ("testng", 90)
      else none
    else none
  match pomSignal with
  | some r => some r
  | none =>
    match ["build.gradle", "build.gradle.kts"].findSome? (gradleSignal fs) with
    | some r => some r
    | none =>
      let test_files := rglob fs "" "Test.java" ++ rglob fs "" "Tests.java"
      (test_files.take 5).findSome? javaFileSignal

/-- Source `detect_go_framework`. -/
def detect_go_framework (fs : FS) : Option (String × Nat) :=
  let test_files := rglob fs "" "_test.go"
  if test_files.isEmpty then none
  else if (test_files.take 5).any
      (fun e => entryContains e ["github.com/stretchr/testify"]) then
    some ("go-test-testify", 85)
  else some ("go-test", 90)

structure Signal where
  language : String
  framework : String
  confidence : Nat
deriving DecidableEq, Repr

inductive Verdict where
  | error (msg : String)
  | unknown (framework : String) (confidence : Nat) (language : String) (message : String)
  | result (s : Signal)
deriving DecidableEq, Repr

def Verdict.isError : Verdict → Bool
  | Verdict.error _ => true
  | _ => false

/-- The fixed detector table of the aggregator, in declaration order. -/
def detectors : List (String × (FS → Option (String × Nat))) :=
  [("python", detect_python_framework),
   ("javascript", detect_javascript_framework),
   ("dotnet", detect_dotnet_framework),
   ("java", detect_java_framework),
   ("go", detect_go_framework)]

/-- The `results` list built by the aggregator loop: every positive signal,
in detector order. -/
def collectSignals (fs : FS) : List Signal :=
  detectors.filterMap (fun d => (d.2 fs).map (fun r => Signal.mk d.1 r.1 r.2))

/-- One step of the left-to-right maximum scan performed by the source
`max(results, key=...)`: keep the current best unless the next confidence
is strictly greater. -/
def stepMax (best x : Signal) : Signal :=
  if best.confidence < x.confidence then x else best

def pickBest (s : Signal) (rest : List Signal) : Signal :=
  rest.foldl stepMax s

def unknownVerdict : Verdict :=
  Verdict.unknown "unknown" 0 "unknown" "No test framework detected"

/-- Source `detect_test_framework`: error when the supplied path does not
exist at all, else run the five detectors and reduce. -/
def detect_test_framework (path : String) (fs : FS) : Verdict :=
  if fs.rootStatus = RootStatus.missing then
    Verdict.error ("Path does not exist: " ++ path)
  else
    match collectSignals fs with
    | [] => unknownVerdict
    | s :: rest => Verdict.result (pickBest s rest)

/-! ### Properties of the left-to-right maximum scan -/

theorem pickBest_cons (s x : Signal) (rest : List Signal) :
    pickBest s (x :: rest) = pickBest (stepMax s x) rest := rfl

theorem confidence_le_pickBest (rest : List Signal) :
    ∀ s : Signal, s.confidence ≤ (pickBest s rest).confidence := by
  induction rest with
  | nil => intro s; exact Nat.le_refl _
  | cons x t ih =>
    intro s
    rw [pickBest_cons]
    refine Nat.le_trans ?_ (ih (stepMax s x))
    unfold stepMax
    split
    · exact Nat.le_of_lt (by assumption)
    · exact Nat.le_refl _

/-- The scan result sits in the list with strictly smaller confidences
before it and no larger confidence after it: it is the first maximum. -/
theorem pickBest_spec (rest : List Signal) :
    ∀ s : Signal, ∃ l1 l2,
      s :: rest = l1 ++ pickBest s rest :: l2 ∧
      (∀ x ∈ l1, x.confidence < (pickBest s rest).confidence) ∧
      (∀ x ∈ l2, x.confidence ≤ (pickBest s rest).confidence) := by
  induction rest with
  | nil =>
    intro s
    exact ⟨[], [], rfl, (by simp), (by simp)⟩
  | cons x t ih =>
    intro s
    rw [pickBest_cons]
    by_cases h : s.confidence < x.confidence
    · have hstep : stepMax s x = x := by unfold stepMax; rw [if_pos h]
      rw [hstep]
      obtain ⟨l1, l2, hdec, h1, h2⟩ := ih x
      refine ⟨s :: l1, l2, ?_, ?_, h2⟩
      · rw [List.cons_append, ← hdec]
      · intro y hy
        cases hy with
        | head => exact Nat.lt_of_lt_of_le h (confidence_le_pickBest t x)
        | tail _ hy => exact h1 y hy
    · have hstep : stepMax s x = s := by unfold stepMax; rw [if_neg h]
      rw [hstep]
      obtain ⟨l1, l2, hdec, h1, h2⟩ := ih s
      cases l1 with
      | nil =>
        rw [List.nil_append] at hdec
        injection hdec with hs ht
        refine ⟨[], x :: l2, ?_, (by simp), ?_⟩
        · rw [List.nil_append, ← hs, ← ht]
        · intro y hy
          cases hy with
          | head =>
            have hxle : x.confidence ≤ s.confidence := Nat.le_of_not_lt h
            rw [hs] at hxle
            exact hxle
          | tail _ hy => exact h2 y hy
      | cons a l1 =>
        rw [List.cons_append] at hdec
        injection hdec with hs ht
        have hsc : s.confidence < (pickBest s t).confidence := by
          have ha := h1 a (List.mem_cons_self a l1)
          rw [← hs] at ha
          exact ha
        refine ⟨s :: x :: l1, l2, ?_, ?_, h2⟩
        · rw [List.cons_append, List.cons_append, ← ht]
        · intro y hy
          cases hy with
          | head => exact hsc
          | tail _ hy =>
            cases hy with
            | head => exact Nat.lt_of_le_of_lt (Nat.le_of_not_lt h) hsc
            | tail _ hy => exact h1 y (List.mem_cons_of_mem a hy)

theorem pickBest_mem (s : Signal) (rest : List Signal) :
    pickBest s rest ∈ s :: rest := by
  obtain ⟨l1, l2, hdec, _, _⟩ := pickBest_spec rest s
  rw [hdec]
  exact List.mem_append.mpr (Or.inr (List.mem_cons_self _ _))

theorem pickBest_of_le (l : List Signal) :
    ∀ s : Signal, (∀ x ∈ l, x.confidence ≤ s.confidence) → pickBest s l = s := by
  induction l with
  | nil => intro s _; rfl
  | cons x t ih =>
    intro s hle
    rw [pickBest_cons]
    have hx : ¬s.confidence < x.confidence :=
      Nat.not_lt.mpr (hle x (List.mem_cons_self x t))
    have hstep : stepMax s x = s := by unfold stepMax; rw [if_neg hx]
    rw [hstep]
    exact ih s (fun y hy => hle y (List.mem_cons_of_mem x hy))

/-- Converse direction of `pickBest_spec`: a first-maximum decomposition
determines the scan result. -/
theorem pickBest_eq_of_aux (m : Signal) (l2 : List Signal)
    (h2 : ∀ x ∈ l2, x.confidence ≤ m.confidence) :
    ∀ (l1 : List Signal) (s : Signal) (rest : List Signal),
      rest = l1 ++ m :: l2 → s.confidence < m.confidence →
      (∀ x ∈ l1, x.confidence < m.confidence) →
      pickBest s rest = m := by
  intro l1
  induction l1 with
  | nil =>
    intro s rest hrest hs _
    rw [hrest, List.nil_append, pickBest_cons]
    have hstep : stepMax s m = m := by unfold stepMax; rw [if_pos hs]
    rw [hstep]
    exact pickBest_of_le l2 m h2
  | cons b l1 ih =>
    intro s rest hrest hs h1
    rw [hrest, List.cons_append, pickBest_cons]
    have hb : b.confidence < m.confidence := h1 b (List.mem_cons_self b l1)
    have hstepc : (stepMax s b).confidence < m.confidence := by
      unfold stepMax
      split
      · exact hb
      · exact hs
    exact ih (stepMax s b) (l1 ++ m :: l2) rfl hstepc
      (fun y hy => h1 y (List.mem_cons_of_mem b hy))

theorem pickBest_eq_of (s : Signal) (rest l1 l2 : List Signal) (m : Signal)
    (hdec : s :: rest = l1 ++ m :: l2)
    (h1 : ∀ x ∈ l1, x.confidence < m.confidence)
    (h2 : ∀ x ∈ l2, x.confidence ≤ m.confidence) :
    pickBest s rest = m := by
  cases l1 with
  | nil =>
    rw [List.nil_append] at hdec
    injection hdec with hs ht
    rw [← hs] at h2 ⊢
    rw [ht]
    exact pickBest_of_le l2 s h2
  | cons a l1 =>
    rw [List.cons_append] at hdec
    injection hdec with hs ht
    have hsc : s.confidence < m.confidence := by
      have := h1 a (List.mem_cons_self a l1)
      rw [← hs] at this
      exact this
    exact pickBest_eq_of_aux m l2 h2 l1 s rest ht hsc
      (fun y hy => h1 y (List.mem_cons_of_mem a hy))

/-- A non-missing root whose collected signal list admits a first-maximum
decomposition at `m` makes the aggregator return `m`. -/
theorem detect_result_of_decomp (path : String) (fs : FS) (m : Signal)
    (l1 l2 : List Signal)
    (hroot : fs.rootStatus ≠ RootStatus.missing)
    (hsig : collectSignals fs = l1 ++ m :: l2)
    (h1 : ∀ x ∈ l1, x.confidence < m.confidence)
    (h2 : ∀ x ∈ l2, x.confidence ≤ m.confidence) :
    detect_test_framework path fs = Verdict.result m := by
  unfold detect_test_framework
  rw [if_neg hroot]
  cases hcol : collectSignals fs with
  | nil =>
    rw [hcol] at hsig
    exact absurd hsig.symm (List.append_ne_nil_of_right_ne_nil l1 (List.cons_ne_nil m l2))
  | cons s rest =>
    rw [hcol] at hsig
    show Verdict.result (pickBest s rest) = Verdict.result m
    rw [pickBest_eq_of s rest l1 l2 m hsig h1 h2]

/-- Rendering of one detector slot of the aggregator loop. -/
def optSig (lang : String) : Option (String × Nat) → List Signal
  | none => []
  | some r => [Signal.mk lang r.1 r.2]

theorem collectSignals_eq (fs : FS) :
    collectSignals fs =
      optSig "python" (detect_python_framework fs) ++
      optSig "javascript" (detect_javascript_framework fs) ++
      optSig "dotnet" (detect_dotnet_framework fs) ++
      optSig "java" (detect_java_framework fs) ++
      optSig "go" (detect_go_framework fs) := by
  simp only [collectSignals, detectors, List.filterMap_cons, List.filterMap_nil]
  cases detect_python_framework fs <;> cases detect_javascript_framework fs <;>
    cases detect_dotnet_framework fs <;> cases detect_java_framework fs <;>
    cases detect_go_framework fs <;>
    simp [optSig]

theorem mem_optSig (lang : String) (o : Option (String × Nat)) (x : Signal)
    (hx : x ∈ optSig lang o) : ∃ r, o = some r ∧ x = Signal.mk lang r.1 r.2 := by
  cases o with
  | none => cases hx
  | some r =>
    refine ⟨r, rfl, ?_⟩
    cases hx with
    | head => rfl
    | tail _ h => cases h

/-! ### Confidence tiers produced by each detector -/

theorem detect_python_conf (fs : FS) (r : String × Nat)
    (h : detect_python_framework fs = some r) : r.2 ∈ [90, 80, 70, 50] := by
  simp only [detect_python_framework] at h
  split at h
  · injection h with h; subst h; decide
  · split at h
    · injection h with h; subst h; decide
    · split at h
      · injection h with h; subst h; decide
      · split at h
        · exact Option.noConfusion h
        · injection h with h; subst h; decide

theorem jsFileSignal_conf (e : FSEntry) (r : String × Nat)
    (h : jsFileSignal e = some r) : r.2 = 75 := by
  simp only [jsFileSignal] at h
  split at h
  · injection h with h; subst h; rfl
  · split at h
    · injection h with h; subst h; rfl
    · split at h
      · injection h with h; subst h; rfl
      · exact Option.noConfusion h

theorem detect_javascript_conf (fs : FS) (r : String × Nat)
    (h : detect_javascript_framework fs = some r) : r.2 ∈ [90, 85, 80, 75] := by
  simp only [detect_javascript_framework] at h
  split at h
  · injection h with h; subst h; decide
  · split at h
    · injection h with h; subst h; decide
    · split at h
      next r' heq =>
        injection h with h; subst h
        split at heq
        · split at heq
          · injection heq with heq; subst heq; decide
          · split at heq
            · injection heq with heq; subst heq; decide
            · split at heq
              · injection heq with heq; subst heq; decide
              · split at heq
                · injection heq with heq; subst heq; decide
                · split at heq
                  · injection heq with heq; subst heq; decide
                  · exact Option.noConfusion heq
        · exact Option.noConfusion heq
      next heq =>
        obtain ⟨e, _, he⟩ := List.exists_of_findSome?_eq_some h
        rw [jsFileSignal_conf e r he]
        decide

theorem dotnetProjSignal_conf (e : FSEntry) (r : String × Nat)
    (h : dotnetProjSignal e = some r) : r.2 = 90 := by
  simp only [dotnetProjSignal] at h
  split at h
  · injection h with h; subst h; rfl
  · split at h
    · injection h with h; subst h; rfl
    · split at h
      · injection h with h; subst h; rfl
      · exact Option.noConfusion h

theorem dotnetFileSignal_conf (e : FSEntry) (r : String × Nat)
    (h : dotnetFileSignal e = some r) : r.2 = 80 := by
  simp only [dotnetFileSignal] at h
  split at h
  · injection h with h; subst h; rfl
  · split at h
    · injection h with h; subst h; rfl
    · split at h
      · injection h with h; subst h; rfl
      · exact Option.noConfusion h

theorem detect_dotnet_conf (fs : FS) (r : String × Nat)
    (h : detect_dotnet_framework fs = some r) : r.2 ∈ [90, 80] := by
  simp only [detect_dotnet_framework] at h
  split at h
  next r' heq =>
    injection h with h; subst h
    obtain ⟨e, _, he⟩ := List.exists_of_findSome?_eq_some heq
    rw [dotnetProjSignal_conf e r' he]
    decide
  next heq =>
    obtain ⟨e, _, he⟩ := List.exists_of_findSome?_eq_some h
    rw [dotnetFileSignal_conf e r he]
    decide

theorem gradleSignal_conf (fs : FS) (name : String) (r : String × Nat)
    (h : gradleSignal fs name = some r) : r.2 = 90 := by
  simp only [gradleSignal] at h
  split at h
  · split at h
    · injection h with h; subst h; rfl
    · split at h
      · injection h with h; subst h; rfl
      · exact Option.noConfusion h
  · exact Option.noConfusion h

theorem javaFileSignal_conf (e : FSEntry) (r : String × Nat)
    (h : javaFileSignal e = some r) : r.2 = 80 := by
  simp only [javaFileSignal] at h
  split at h
  · injection h with h; subst h; rfl
  · split at h
    · injection h with h; subst h; rfl
    · split at h
      · injection h with h; subst h; rfl
      · exact Option.noConfusion h

theorem detect_java_conf (fs : FS) (r : String × Nat)
    (h : detect_java_framework fs = some r) : r.2 ∈ [90, 80] := by
  simp only [detect_java_framework] at h
  split at h
  next r' heq =>
    injection h with h; subst h
    split at heq
    · split at heq
      · injection heq with heq; subst heq; decide
      · split at heq
        · injection heq with heq; subst heq; decide
        · split at heq
          · injection heq with heq; subst heq; decide
          · exact Option.noConfusion heq
    · exact Option.noConfusion heq
  next heq =>
    split at h
    next r' heq2 =>
      injection h with h; subst h
      obtain ⟨name, _, hn⟩ := List.exists_of_findSome?_eq_some heq2
      rw [gradleSignal_conf fs name r' hn]
      decide
    next heq2 =>
      obtain ⟨e, _, he⟩ := List.exists_of_findSome?_eq_some h
      rw [javaFileSignal_conf e r he]
      decide

theorem detect_go_conf (fs : FS) (r : String × Nat)
    (h : detect_go_framework fs = some r) : r.2 ∈ [90, 85] := by
  simp only [detect_go_framework] at h
  split at h
  · exact Option.noConfusion h
  · split at h
    · injection h with h; subst h; decide
    · injection h with h; subst h; decide

theorem detect_python_conf_le (fs : FS) (r : String × Nat)
    (hcfg : check_file_exists fs pytest_configs = false)
    (h : detect_python_framework fs = some r) : r.2 ≤ 80 := by
  simp only [detect_python_framework, hcfg, Bool.false_eq_true, if_false] at h
  split at h
  · injection h with h; subst h; decide
  · split at h
    · injection h with h; subst h; decide
    · split at h
      · exact Option.noConfusion h
      · injection h with h; subst h; decide

/-! ### Concrete roots used in witnesses and counterexamples -/

def fsFileRoot : FS := FS.mk RootStatus.file []

def fsEmptyDir : FS := FS.mk RootStatus.dir []

def fsLocked : FS := FS.mk RootStatus.dir [FSEntry.mk "requirements.txt" none]

def fsBareTestKey : FS := FS.mk RootStatus.dir
  [FSEntry.mk "package.json" (some "scripts block holds \"test\": \"node run.js\"")]

def fsVitestAndJest : FS := FS.mk RootStatus.dir
  [FSEntry.mk "package.json" (some "deps \"vitest\": \"1.0\" and \"jest\": \"29.0\"")]

def jestOnlyContent : String := "deps \"jest\": \"29.0\""

def fsJestOnly : FS := FS.mk RootStatus.dir
  [FSEntry.mk "package.json" (some jestOnlyContent)]

def fsTie : FS := FS.mk RootStatus.dir
  [FSEntry.mk "pytest.ini" (some ""), FSEntry.mk "vitest.config.ts" (some "")]

def plainGo : Option String := some "package mypkg"

def testifyGo : Option String := some "import github.com/stretchr/testify and more"

def fsGoSix : FS := FS.mk RootStatus.dir
  [FSEntry.mk "a_test.go" plainGo, FSEntry.mk "b_test.go" plainGo,
   FSEntry.mk "c_test.go" plainGo, FSEntry.mk "d_test.go" plainGo,
   FSEntry.mk "e_test.go" plainGo, FSEntry.mk "f_test.go" testifyGo]

def javaBothContent : String := "import org.junit.Test; methods below carry @Test markers"

def fsJavaBoth : FS := FS.mk RootStatus.dir
  [FSEntry.mk "FooTest.java" (some javaBothContent)]

def fsJavaFour : FS := FS.mk RootStatus.dir
  [FSEntry.mk "FooTest.java" (some "import org.junit.Test only, markers spelled Test")]

/-! ### Claim theorems -/

/-- C2 counterexample: a supplied path that exists as a regular file does
not exist as a directory, yet the source checks bare existence, proceeds
past the error branch, and returns the unknown verdict instead of an
error verdict. -/
theorem detect_error_counterexample :
    detect_test_framework "somefile.txt" fsFileRoot =
      Verdict.unknown "unknown" 0 "unknown" "No test framework detected" ∧
    (detect_test_framework "somefile.txt" fsFileRoot).isError = false :=
  ⟨rfl, rfl⟩

/-- C2 amended: for every supplied path that does not exist at all, detect
returns the error verdict built from the path immediately, and the result
is independent of whatever entries a detector could have observed, so no
detector output influences the verdict. -/
theorem detect_error_on_missing_root (path : String) (entries : List FSEntry) :
    detect_test_framework path (FS.mk RootStatus.missing entries) =
      Verdict.error ("Path does not exist: " ++ path) ∧
    detect_test_framework path (FS.mk RootStatus.missing entries) =
      detect_test_framework path (FS.mk RootStatus.missing []) :=
  ⟨rfl, rfl⟩

/-- C3: the content probe is a total boolean function of the modelled read
outcome, and whenever the probed file is not both present and readable
(missing file, permission failure, directory, I/O error) it returns false
rather than propagating an exception; on a readable file it is the pattern
check over the leniently decoded text, which exists for every byte
content. -/
theorem check_file_contains_false_on_unreadable (fs : FS) (name : String)
    (patterns : List String)
    (h : ∀ c : String, fs.lookup name ≠ some (some c)) :
    check_file_contains fs name patterns = false := by
  unfold check_file_contains
  rcases hl : fs.lookup name with _ | oc
  · rfl
  · rcases oc with _ | c
    · rfl
    · exact absurd hl (h c)

/-- Witness for C3 at a root whose requirements.txt exists but cannot be
read. -/
theorem check_file_contains_false_on_unreadable_witness :
    check_file_contains fsLocked "requirements.txt" ["pytest"] = false :=
  check_file_contains_false_on_unreadable fsLocked "requirements.txt" ["pytest"]
    (fun _ hc => Option.noConfusion (Option.some.inj hc))

/-- C4 failing input evaluated: a package.json whose test-script entry
references neither vitest nor jest still makes the web detector return the
confidence-80 vitest signal, because the probe accepts either of its two
patterns and the bare "test": key already matches; the spec's rule says
this tier fires only when the script references the runner. -/
theorem js_bare_test_key_gives_vitest80 :
    detect_javascript_framework fsBareTestKey = some ("vitest", 80) ∧
    detect_test_framework "proj" fsBareTestKey =
      Verdict.result (Signal.mk "javascript" "vitest" 80) :=
  ⟨by decide, by decide⟩

/-- C5 counterexample: a package.json declaring both a vitest and a jest
dependency key contains the literal substring named by the claim and no
config file is present, yet detect returns the vitest signal, not jest,
because the vitest key is probed first. -/
theorem jest85_counterexample :
    detect_test_framework "proj" fsVitestAndJest =
      Verdict.result (Signal.mk "javascript" "vitest" 85) ∧
    detect_test_framework "proj" fsVitestAndJest ≠
      Verdict.result (Signal.mk "javascript" "jest" 85) :=
  ⟨by decide, by decide⟩

/-- C6: a root whose only file is pytest.ini, whatever its content or
readability, yields the pytest verdict of the dynamic-scripting detector
at confidence 90; the source spells that ecosystem's language tag
"python". -/
theorem detect_pytest_ini_only (path : String) (c : Option String) :
    detect_test_framework path (FS.mk RootStatus.dir [FSEntry.mk "pytest.ini" c]) =
      Verdict.result (Signal.mk "python" "pytest" 90) := rfl

/-- C8: whenever the root exists and no detector produces a signal, detect
returns exactly the fixed unknown verdict: framework unknown, confidence
0, language unknown, and the fixed message. -/
theorem detect_unknown_when_no_signals (path : String) (fs : FS)
    (hroot : fs.rootStatus ≠ RootStatus.missing)
    (hnone : collectSignals fs = []) :
    detect_test_framework path fs =
      Verdict.unknown "unknown" 0 "unknown" "No test framework detected" := by
  unfold detect_test_framework
  rw [if_neg hroot, hnone]
  rfl

/-- Witness for C8 at an existing empty directory. -/
theorem detect_unknown_when_no_signals_witness :
    detect_test_framework "w" fsEmptyDir =
      Verdict.unknown "unknown" 0 "unknown" "No test framework detected" :=
  detect_unknown_when_no_signals "w" fsEmptyDir (by decide) (by decide)

/-- C1: for every root that exists, when at least one detector produces a
signal, the aggregator returns the collected signal of maximum confidence;
`collectSignals` lists signals in the fixed detector order python
(dynamic scripting), javascript (web), dotnet (managed runtime), java
(JVM), go (compiled), and the returned signal is preceded only by strictly
smaller confidences and followed by none larger, so on a confidence tie
the earliest detector in that order wins. -/
theorem detect_returns_first_max_confidence (path : String) (fs : FS)
    (s : Signal) (rest : List Signal)
    (hroot : fs.rootStatus ≠ RootStatus.missing)
    (hsig : collectSignals fs = s :: rest) :
    ∃ m l1 l2,
      detect_test_framework path fs = Verdict.result m ∧
      collectSignals fs = l1 ++ m :: l2 ∧
      (∀ x ∈ l1, x.confidence < m.confidence) ∧
      (∀ x ∈ l2, x.confidence ≤ m.confidence) := by
  obtain ⟨l1, l2, hdec, h1, h2⟩ := pickBest_spec rest s
  refine ⟨pickBest s rest, l1, l2, ?_, (by rw [hsig]; exact hdec), h1, h2⟩
  unfold detect_test_framework
  rw [if_neg hroot, hsig]

/-- Witness for C1 at a root where the python and javascript detectors tie
at confidence 90 and the python signal, earliest in the fixed order, is
returned. -/
theorem detect_returns_first_max_confidence_witness :
    ∃ m l1 l2,
      detect_test_framework "w" fsTie = Verdict.result m ∧
      collectSignals fsTie = l1 ++ m :: l2 ∧
      (∀ x ∈ l1, x.confidence < m.confidence) ∧
      (∀ x ∈ l2, x.confidence ≤ m.confidence) :=
  detect_returns_first_max_confidence "w" fsTie
    (Signal.mk "python" "pytest" 90) [Signal.mk "javascript" "vitest" 90]
    (by decide) (by decide)

/-- C7: when the recursive search yields six or more files matching the Go
test pattern and none of the first five contains the testify marker, the
compiled-ecosystem detector returns the plain go-test signal at confidence
90 even though the sixth file contains the marker: only the first five
matches are content-probed. -/
theorem go_testify_sampling_boundary (fs : FS) (e6 : FSEntry)
    (hlen : 6 ≤ (rglob fs "" "_test.go").length)
    (h5 : ∀ e ∈ (rglob fs "" "_test.go").take 5,
      entryContains e ["github.com/stretchr/testify"] = false)
    (h6 : (rglob fs "" "_test.go")[5]? = some e6)
    (h6c : entryContains e6 ["github.com/stretchr/testify"] = true) :
    detect_go_framework fs = some ("go-test", 90) := by
  have hne : (rglob fs "" "_test.go").isEmpty = false := by
    cases hk : rglob fs "" "_test.go" with
    | nil => rw [hk] at hlen; simp at hlen
    | cons a t => rfl
  have hany : ((rglob fs "" "_test.go").take 5).any
      (fun e => entryContains e ["github.com/stretchr/testify"]) = false :=
    List.any_eq_false.mpr (fun e he => by simp [h5 e he])
  simp only [detect_go_framework, hne, hany, Bool.false_eq_true, if_false]

/-- Witness for C7 on a root with six files matching the Go test pattern,
the testify marker appearing only in the sixth. -/
theorem go_testify_sampling_boundary_witness :
    detect_go_framework fsGoSix = some ("go-test", 90) :=
  go_testify_sampling_boundary fsGoSix (FSEntry.mk "f_test.go" testifyGo)
    (by decide) (by decide) (by decide) (by decide)

theorem rootStatus_dir_of_lookup (fs : FS) (name : String) (o : Option String)
    (h : fs.lookup name = some o) : fs.rootStatus = RootStatus.dir := by
  unfold FS.lookup at h
  by_cases hd : fs.rootStatus = RootStatus.dir
  · exact hd
  · rw [if_neg hd] at h
    exact Option.noConfusion h

theorem js_jest85_of (fs : FS) (c : String)
    (hpkg : fs.lookup "package.json" = some (some c))
    (hjest : strContains c "\"jest\"" = true)
    (hvit : strContains c "\"vitest\"" = false)
    (hvc : check_file_exists fs ["vitest.config.ts", "vitest.config.js", "vite.config.ts"] = false)
    (hjc : check_file_exists fs ["jest.config.js", "jest.config.ts", "jest.config.json"] = false) :
    detect_javascript_framework fs = some ("jest", 85) := by
  have hex : entryExists fs "package.json" = true := by
    unfold entryExists
    rw [hpkg]
    rfl
  have hcv : check_file_contains fs "package.json" ["\"vitest\""] = false := by
    unfold check_file_contains
    rw [hpkg]
    simp [hvit]
  have hcj : check_file_contains fs "package.json" ["\"jest\""] = true := by
    unfold check_file_contains
    rw [hpkg]
    simp [hjest]
  simp [detect_javascript_framework, hvc, hjc, hex, hcv, hcj]

/-- C5 amended: for every root whose package.json reads as text containing
the literal substring "jest" (quoted dependency key) but not "vitest",
with no vitest or jest config file present, no pytest config file present,
and the dotnet, java and go detectors producing no signal stronger than
confidence 85, detect returns framework jest at confidence 85 under the
web ecosystem tag javascript. -/
theorem detect_jest85_amended (path : String) (fs : FS) (c : String)
    (hpkg : fs.lookup "package.json" = some (some c))
    (hjest : strContains c "\"jest\"" = true)
    (hvit : strContains c "\"vitest\"" = false)
    (hvc : check_file_exists fs ["vitest.config.ts", "vitest.config.js", "vite.config.ts"] = false)
    (hjc : check_file_exists fs ["jest.config.js", "jest.config.ts", "jest.config.json"] = false)
    (hpy : check_file_exists fs pytest_configs = false)
    (hdn : ∀ r : String × Nat, detect_dotnet_framework fs = some r → r.2 ≤ 85)
    (hjv : ∀ r : String × Nat, detect_java_framework fs = some r → r.2 ≤ 85)
    (hgo : ∀ r : String × Nat, detect_go_framework fs = some r → r.2 ≤ 85) :
    detect_test_framework path fs = Verdict.result (Signal.mk "javascript" "jest" 85) := by
  have hroot : fs.rootStatus ≠ RootStatus.missing := by
    rw [rootStatus_dir_of_lookup fs "package.json" (some c) hpkg]
    intro hcon
    exact RootStatus.noConfusion hcon
  have hjs := js_jest85_of fs c hpkg hjest hvit hvc hjc
  have hcol := collectSignals_eq fs
  rw [hjs] at hcol
  refine detect_result_of_decomp path fs (Signal.mk "javascript" "jest" 85)
    (optSig "python" (detect_python_framework fs))
    (optSig "dotnet" (detect_dotnet_framework fs) ++
      optSig "java" (detect_java_framework fs) ++
      optSig "go" (detect_go_framework fs)) hroot ?_ ?_ ?_
  · rw [hcol]
    simp [optSig, List.append_assoc]
  · intro x hx
    obtain ⟨r, hr, hxr⟩ := mem_optSig "python" _ x hx
    subst hxr
    exact Nat.lt_of_le_of_lt (detect_python_conf_le fs r hpy hr) (by decide)
  · intro x hx
    rcases List.mem_append.mp hx with hx2 | hxgo
    · rcases List.mem_append.mp hx2 with hxdn | hxjv
      · obtain ⟨r, hr, hxr⟩ := mem_optSig "dotnet" _ x hxdn
        subst hxr
        exact hdn r hr
      · obtain ⟨r, hr, hxr⟩ := mem_optSig "java" _ x hxjv
        subst hxr
        exact hjv r hr
    · obtain ⟨r, hr, hxr⟩ := mem_optSig "go" _ x hxgo
      subst hxr
      exact hgo r hr

/-- Witness for C5 at a root holding only a package.json that declares a
jest dependency. -/
theorem detect_jest85_amended_witness :
    detect_test_framework "proj" fsJestOnly =
      Verdict.result (Signal.mk "javascript" "jest" 85) :=
  detect_jest85_amended "proj" fsJestOnly jestOnlyContent rfl (by decide)
    (by decide) (by decide) (by decide) (by decide)
    (by
      intro r hr
      rw [show detect_dotnet_framework fsJestOnly = none from rfl] at hr
      exact Option.noConfusion hr)
    (by
      intro r hr
      rw [show detect_java_framework fsJestOnly = none from rfl] at hr
      exact Option.noConfusion hr)
    (by
      intro r hr
      rw [show detect_go_framework fsJestOnly = none from rfl] at hr
      exact Option.noConfusion hr)

/-- C9: every signal any detector contributes carries a confidence from
the fixed tier vocabulary 50, 70, 75, 80, 85, 90, and every normal verdict
of the aggregator does too; a detector with no evidence contributes
nothing to the collected list rather than a zero-confidence signal, and
the only other confidence the aggregator emits is the fixed 0 of the
unknown verdict. -/
theorem confidence_tier_vocabulary (path : String) (fs : FS) :
    (∀ s ∈ collectSignals fs, s.confidence ∈ [50, 70, 75, 80, 85, 90]) ∧
    (∀ s : Signal, detect_test_framework path fs = Verdict.result s →
      s.confidence ∈ [50, 70, 75, 80, 85, 90]) := by
  have hmem : ∀ s ∈ collectSignals fs, s.confidence ∈ [50, 70, 75, 80, 85, 90] := by
    intro s hs
    rw [collectSignals_eq fs] at hs
    rcases List.mem_append.mp hs with hs4 | hsgo
    · rcases List.mem_append.mp hs4 with hs3 | hsjv
      · rcases List.mem_append.mp hs3 with hs2 | hsdn
        · rcases List.mem_append.mp hs2 with hspy | hsjs
          · obtain ⟨r, hr, hxr⟩ := mem_optSig "python" _ s hspy
            subst hxr
            have hv := detect_python_conf fs r hr
            simp only [List.mem_cons, List.not_mem_nil, or_false] at hv ⊢
            omega
          · obtain ⟨r, hr, hxr⟩ := mem_optSig "javascript" _ s hsjs
            subst hxr
            have hv := detect_javascript_conf fs r hr
            simp only [List.mem_cons, List.not_mem_nil, or_false] at hv ⊢
            omega
        · obtain ⟨r, hr, hxr⟩ := mem_optSig "dotnet" _ s hsdn
          subst hxr
          have hv := detect_dotnet_conf fs r hr
          simp only [List.mem_cons, List.not_mem_nil, or_false] at hv ⊢
          omega
      · obtain ⟨r, hr, hxr⟩ := mem_optSig "java" _ s hsjv
        subst hxr
        have hv := detect_java_conf fs r hr
        simp only [List.mem_cons, List.not_mem_nil, or_false] at hv ⊢
        omega
    · obtain ⟨r, hr, hxr⟩ := mem_optSig "go" _ s hsgo
      subst hxr
      have hv := detect_go_conf fs r hr
      simp only [List.mem_cons, List.not_mem_nil, or_false] at hv ⊢
      omega
  refine ⟨hmem, ?_⟩
  intro s h
  unfold detect_test_framework at h
  by_cases hm : fs.rootStatus = RootStatus.missing
  · rw [if_pos hm] at h
    exact Verdict.noConfusion h
  · rw [if_neg hm] at h
    cases hcol : collectSignals fs with
    | nil =>
      rw [hcol] at h
      exact Verdict.noConfusion h
    | cons a rest =>
      rw [hcol] at h
      have h2 : Verdict.result (pickBest a rest) = Verdict.result s := h
      have hps : pickBest a rest = s := by injection h2
      have hin := pickBest_mem a rest
      rw [hps, ← hcol] at hin
      exact hmem s hin

/-- Witness for C9: the tie root's python signal is collected and its
confidence 90 lies in the vocabulary. -/
theorem confidence_tier_vocabulary_witness :
    (Signal.mk "python" "pytest" 90).confidence ∈ [50, 70, 75, 80, 85, 90] :=
  (confidence_tier_vocabulary "w" fsTie).1 (Signal.mk "python" "pytest" 90) (by decide)

/-- C10: at the test-file stage of the JVM detector (no Maven or Gradle
descriptor present at the root), a first sampled test file whose content
contains the literal "@Test" yields the junit5 signal at confidence 80
regardless of what else it contains, because the junit5 probe accepts
either of its two patterns; dually, a junit4 signal at confidence 80 can
only arise from a sampled file that contains "org.junit.Test" but neither
"@Test" nor the jupiter marker. -/
theorem java_atTest_junit5_precedence :
    (∀ (fs : FS) (e : FSEntry) (es : List FSEntry) (c : String),
      entryExists fs "pom.xml" = false →
      entryExists fs "build.gradle" = false →
      entryExists fs "build.gradle.kts" = false →
      (rglob fs "" "Test.java" ++ rglob fs "" "Tests.java").take 5 = e :: es →
      e.content = some c →
      strContains c "@Test" = true →
      detect_java_framework fs = some ("junit5", 80)) ∧
    (∀ fs : FS, detect_java_framework fs = some ("junit4", 80) →
      ∃ e ∈ (rglob fs "" "Test.java" ++ rglob fs "" "Tests.java").take 5,
        ∃ c : String, e.content = some c ∧
          strContains c "org.junit.Test" = true ∧
          strContains c "@Test" = false ∧
          strContains c "org.junit.jupiter" = false) := by
  constructor
  · intro fs e es c hpom hg1 hg2 hsample hc hat
    have hgr1 : gradleSignal fs "build.gradle" = none := by
      simp [gradleSignal, hg1]
    have hgr2 : gradleSignal fs "build.gradle.kts" = none := by
      simp [gradleSignal, hg2]
    have hece : entryContains e ["org.junit.jupiter", "@Test"] = true := by
      unfold entryContains
      rw [hc]
      simp [hat]
    have hjs : javaFileSignal e = some ("junit5", 80) := by
      simp [javaFileSignal, hece]
    simp only [detect_java_framework, hpom, Bool.false_eq_true, if_false,
      List.findSome?_cons, hgr1, hgr2, List.findSome?_nil, hsample, hjs]
  · intro fs h
    simp only [detect_java_framework] at h
    split at h
    next r' heq =>
      injection h with h
      subst h
      exfalso
      split at heq
      · split at heq
        · injection heq with heq
          exact absurd (congrArg Prod.snd heq) (by decide)
        · split at heq
          · injection heq with heq
            exact absurd (congrArg Prod.snd heq) (by decide)
          · split at heq
            · injection heq with heq
              exact absurd (congrArg Prod.snd heq) (by decide)
            · exact Option.noConfusion heq
      · exact Option.noConfusion heq
    next heq =>
      split at h
      next r' heq2 =>
        injection h with h
        subst h
        exfalso
        obtain ⟨name, _, hn⟩ := List.exists_of_findSome?_eq_some heq2
        exact absurd (gradleSignal_conf fs name _ hn) (by decide)
      next heq2 =>
        obtain ⟨e, hmem, he⟩ := List.exists_of_findSome?_eq_some h
        refine ⟨e, hmem, ?_⟩
        simp only [javaFileSignal] at he
        split at he
        · injection he with he
          exact absurd (congrArg Prod.fst he) (by decide)
        next hcond1 =>
          split at he
          next hcond2 =>
            cases hec : e.content with
            | none =>
              exfalso
              unfold entryContains at hcond2
              rw [hec] at hcond2
              exact Bool.noConfusion hcond2
            | some c =>
              have h1 : (strContains c "org.junit.Test" || strContains c "@Test") = true := by
                unfold entryContains at hcond2
                rw [hec] at hcond2
                simpa using hcond2
              have h0 : (strContains c "org.junit.jupiter" || strContains c "@Test") = false := by
                have hb : entryContains e ["org.junit.jupiter", "@Test"] = false :=
                  Bool.eq_false_iff.mpr hcond1
                unfold entryContains at hb
                rw [hec] at hb
                simpa using hb
              have hatf : strContains c "@Test" = false := (Bool.or_eq_false_iff.mp h0).2
              have hjup : strContains c "org.junit.jupiter" = false := (Bool.or_eq_false_iff.mp h0).1
              have hojt : strContains c "org.junit.Test" = true := by
                rcases Bool.or_eq_true_iff.mp h1 with hx | hx
                · exact hx
                · rw [hx] at hatf
                  exact absurd hatf (by decide)
              exact ⟨c, rfl, hojt, hatf, hjup⟩
          next hcond2 =>
            exfalso
            split at he
            · injection he with he
              exact absurd (congrArg Prod.fst he) (by decide)
            · exact Option.noConfusion he

/-- Witness for C10: a single sampled file importing org.junit.Test while
also containing "@Test" is classified junit5, and a root classified junit4
at 80 exhibits a sampled file with the JUnit 4 import and no "@Test". -/
theorem java_atTest_junit5_precedence_witness :
    detect_java_framework fsJavaBoth = some ("junit5", 80) ∧
    (∃ e ∈ (rglob fsJavaFour "" "Test.java" ++ rglob fsJavaFour "" "Tests.java").take 5,
      ∃ c : String, e.content = some c ∧
        strContains c "org.junit.Test" = true ∧
        strContains c "@Test" = false ∧
        strContains c "org.junit.jupiter" = false) :=
  ⟨java_atTest_junit5_precedence.1 fsJavaBoth
      (FSEntry.mk "FooTest.java" (some javaBothContent)) [] javaBothContent
      (by decide) (by decide) (by decide) (by decide) rfl (by decide),
    java_atTest_junit5_precedence.2 fsJavaFour (by decide)⟩
